import Mathlib

/-!
Shallow embedding of the dchat Python SDK blockchain-client package
(src/sdk/python/dchat/blockchain/{client,chat_chain,currency_chain,cross_chain,transaction}.py).

Network interaction is modelled by an environment: each poll of the wait
loops consumes one abstract HTTP response (index k of the environment
function), and the fetch helpers map that response to the Option value the
Python method returns.  Time is discrete: the event-loop/monotonic clock
advances by exactly the sleep interval on each loop iteration (2 s for the
generic JSON-RPC client, 1 s = 1000 ms for the chat/currency/bridge loops),
matching the code in which each iteration fetches once and then sleeps.
Python truthiness of an optional string (`if receipt.error:`) is modelled by
strTruthy: an empty string is falsy.
-/

namespace DChat

/-- Mirrors dataclass TransactionReceipt (transaction.py). Timestamps are
abstracted to Nat. -/
structure TransactionReceipt where
  tx_id : String
  tx_hash : String
  success : Bool
  block_height : Option Nat
  block_hash : Option String
  timestamp : Option Nat
  error : Option String
deriving DecidableEq, Repr

/-- The parsed `result` object of an eth_getTransactionReceipt response
(client.py get_transaction_receipt). -/
structure ReceiptResult where
  tx_id : String
  tx_hash : String
  success : Bool
  block_height : Option Nat
  block_hash : Option String
  timestamp : Option Nat
  error : Option String
deriving DecidableEq, Repr

/-- One abstract HTTP exchange: either an exception was raised during the
request (connection error, parse error, ...), or a response with a status
code and an optional parsed `result` body arrived.  `status code none`
covers a missing/null/empty `result` field. -/
inductive FetchResponse (α : Type) where
  | exn : FetchResponse α
  | status : Nat → Option α → FetchResponse α
deriving DecidableEq, Repr

/-- Python truthiness of an Optional[str]: None and the empty string are
falsy. -/
def strTruthy : Option String → Bool
  | none => false
  | some s => s ≠ ""

/-- Mirrors BlockchainClient.get_transaction_receipt (client.py lines
168-205): any exception yields None, a non-200 status yields None, a
missing/null result yields None, otherwise a receipt is built by copying
the result fields. -/
def get_transaction_receipt (resp : FetchResponse ReceiptResult) :
    Option TransactionReceipt :=
  match resp with
  | .exn => none
  | .status code result =>
    if code ≠ 200 then none
    else
      match result with
      | none => none
      | some r =>
        some { tx_id := r.tx_id, tx_hash := r.tx_hash, success := r.success,
               block_height := r.block_height, block_hash := r.block_hash,
               timestamp := r.timestamp, error := r.error }

/-- Mirrors BlockchainClient.is_transaction_confirmed (client.py lines
160-166): fetch the receipt; return receipt.success if a receipt came back,
False otherwise; any exception (already absorbed inside
get_transaction_receipt, whose bare `except` returns None) yields False. -/
def is_transaction_confirmed (resp : FetchResponse ReceiptResult) : Bool :=
  match get_transaction_receipt resp with
  | some r => r.success
  | none => false

/-- Mirrors dataclass BlockchainConfig (client.py lines 22-29). -/
structure BlockchainConfig where
  rpc_url : String
  ws_url : Option String
  confirmation_blocks : Nat
  confirmation_timeout : Nat
  max_retries : Nat
deriving DecidableEq, Repr

/-- The configuration built by BlockchainClient.local (client.py lines
40-50), with the dataclass defaults max_retries = 3. -/
def BlockchainConfig.localDefault : BlockchainConfig :=
  { rpc_url := "http://localhost:8545", ws_url := some "ws://localhost:8546",
    confirmation_blocks := 6, confirmation_timeout := 300, max_retries := 3 }

/-- The transaction cache Dict[str, TransactionReceipt], as an association
list; insertion replaces an existing binding like Python dict assignment. -/
def cacheLookup (cache : List (String × TransactionReceipt)) (txId : String) :
    Option TransactionReceipt :=
  match cache with
  | [] => none
  | (k, v) :: rest => if k = txId then some v else cacheLookup rest txId

/-- Dict assignment `self._transaction_cache[tx_id] = receipt`. -/
def cacheInsert (cache : List (String × TransactionReceipt)) (txId : String)
    (r : TransactionReceipt) : List (String × TransactionReceipt) :=
  match cache with
  | [] => [(txId, r)]
  | (k, v) :: rest =>
    if k = txId then (txId, r) :: rest else (k, v) :: cacheInsert rest txId r

/-- Outcome of BlockchainClient.wait_for_confirmation: a returned receipt,
the `Exception(f"Transaction failed: {receipt.error}")` carrying the error
string, or the TimeoutError. -/
inductive WaitResult where
  | returned : TransactionReceipt → WaitResult
  | txFailed : String → WaitResult
  | timedOut : WaitResult
deriving DecidableEq, Repr

/-- Result of a confirmation wait: the outcome, the final cache, and the
number of receipt fetches (polls) performed. -/
structure WaitOutcome where
  result : WaitResult
  cache : List (String × TransactionReceipt)
  polls : Nat
deriving DecidableEq, Repr

/-- The polling loop of BlockchainClient.wait_for_confirmation (client.py
lines 143-158): while now < deadline, fetch the receipt for poll k; if a
receipt arrived, cache it, return it when success, raise when error is
truthy; otherwise sleep 2 seconds and poll again; past the deadline raise
TimeoutError. -/
def wait_loop (env : Nat → FetchResponse ReceiptResult) (txId : String)
    (cache : List (String × TransactionReceipt)) (now deadline k : Nat) :
    WaitOutcome :=
  if h : now < deadline then
    match get_transaction_receipt (env k) with
    | some r =>
      let cache2 := cacheInsert cache txId r
      if r.success then ⟨.returned r, cache2, k + 1⟩
      else if strTruthy r.error then ⟨.txFailed (r.error.getD ""), cache2, k + 1⟩
      else wait_loop env txId cache2 (now + 2) deadline (k + 1)
    | none => wait_loop env txId cache (now + 2) deadline (k + 1)
  else ⟨.timedOut, cache, k⟩
termination_by deadline - now
decreasing_by all_goals omega

/-- Mirrors BlockchainClient.wait_for_confirmation (client.py lines
133-158): a cached receipt with success or truthy error is returned without
any fetch; otherwise the polling loop runs from time 0 against the deadline
confirmation_timeout. -/
def wait_for_confirmation (cfg : BlockchainConfig)
    (env : Nat → FetchResponse ReceiptResult) (txId : String)
    (cache : List (String × TransactionReceipt)) : WaitOutcome :=
  match cacheLookup cache txId with
  | some cached =>
    if cached.success || strTruthy cached.error then ⟨.returned cached, cache, 0⟩
    else wait_loop env txId cache 0 cfg.confirmation_timeout 0
  | none => wait_loop env txId cache 0 cfg.confirmation_timeout 0

/-- A GET response for the chain/bridge REST endpoints: either an
httpx.HTTPError was raised (connection error, or raise_for_status on a
4xx/5xx), or a response with a status code and a parsed body arrived. -/
inductive HttpResponse (α : Type) where
  | exn : HttpResponse α
  | status : Nat → α → HttpResponse α
deriving DecidableEq, Repr

/-- Mirrors dataclass ChatChainTransaction (chat_chain.py lines 21-32);
the Dict[str, Any] payload is abstracted to string key/value pairs. -/
structure ChatChainTransaction where
  id : String
  tx_type : String
  sender : String
  data : List (String × String)
  status : String
  confirmations : Nat
  block_height : Nat
  created_at : Nat
deriving DecidableEq, Repr

/-- Mirrors ChatChainClient.get_transaction (chat_chain.py lines 121-131):
a 404 yields None; raise_for_status raises httpx.HTTPStatusError (a
subclass of httpx.HTTPError) on any other 4xx/5xx, which the except clause
turns into None; any httpx.HTTPError during the request also yields None;
otherwise the body is parsed into a transaction. -/
def ChatChain.get_transaction (resp : HttpResponse ChatChainTransaction) :
    Option ChatChainTransaction :=
  match resp with
  | .exn => none
  | .status code tx =>
    if code = 404 then none
    else if 400 ≤ code then none
    else some tx

/-- Outcome of the chat/currency-chain wait_for_confirmation: the returned
transaction or the TimeoutError.  These methods have no failure branch. -/
inductive ChainWaitResult (α : Type) where
  | returned : α → ChainWaitResult α
  | timedOut : ChainWaitResult α
deriving DecidableEq, Repr

/-- The polling loop of ChatChainClient.wait_for_confirmation
(chat_chain.py lines 133-143): while elapsed ms < max_wait_ms, fetch the
transaction for poll k; return it when tx.confirmations >= threshold;
otherwise sleep 1 second (1000 ms) and poll again; past the deadline raise
TimeoutError.  Time is in milliseconds.  The result carries the number of
fetches performed. -/
def ChatChain.wait_loop (env : Nat → HttpResponse ChatChainTransaction)
    (threshold now deadline k : Nat) :
    ChainWaitResult ChatChainTransaction × Nat :=
  if h : now < deadline then
    match ChatChain.get_transaction (env k) with
    | some tx =>
      if threshold ≤ tx.confirmations then (.returned tx, k + 1)
      else ChatChain.wait_loop env threshold (now + 1000) deadline (k + 1)
    | none => ChatChain.wait_loop env threshold (now + 1000) deadline (k + 1)
  else (.timedOut, k)
termination_by deadline - now
decreasing_by all_goals omega

/-- The default arguments of ChatChainClient.wait_for_confirmation:
confirmations = 6, max_wait_ms = 30000. -/
def ChatChain.defaultConfirmationThreshold : Nat := 6

/-- Default max_wait_ms of the chat/currency wait (30000 ms). -/
def ChatChain.defaultMaxWaitMs : Nat := 30000

/-- Mirrors ChatChainClient.wait_for_confirmation (chat_chain.py lines
133-143), starting the clock at 0 with deadline maxWaitMs. -/
def ChatChain.wait_for_confirmation (env : Nat → HttpResponse ChatChainTransaction)
    (threshold maxWaitMs : Nat) : ChainWaitResult ChatChainTransaction × Nat :=
  ChatChain.wait_loop env threshold 0 maxWaitMs 0

/-- Mirrors dataclass CurrencyChainTransaction (currency_chain.py lines
30-41). -/
structure CurrencyChainTransaction where
  id : String
  tx_type : String
  from_user : String
  to_user : Option String
  amount : Nat
  status : String
  confirmations : Nat
  block_height : Nat
  created_at : Nat
deriving DecidableEq, Repr

/-- Mirrors CurrencyChainClient.get_transaction (currency_chain.py lines
138-150): same shape as the chat-chain fetch (404 -> None, other HTTP
errors -> None, otherwise parse). -/
def CurrencyChain.get_transaction (resp : HttpResponse CurrencyChainTransaction) :
    Option CurrencyChainTransaction :=
  match resp with
  | .exn => none
  | .status code tx =>
    if code = 404 then none
    else if 400 ≤ code then none
    else some tx

/-- The polling loop of CurrencyChainClient.wait_for_confirmation
(currency_chain.py lines 152-162), identical in structure to the
chat-chain loop. -/
def CurrencyChain.wait_loop (env : Nat → HttpResponse CurrencyChainTransaction)
    (threshold now deadline k : Nat) :
    ChainWaitResult CurrencyChainTransaction × Nat :=
  if h : now < deadline then
    match CurrencyChain.get_transaction (env k) with
    | some tx =>
      if threshold ≤ tx.confirmations then (.returned tx, k + 1)
      else CurrencyChain.wait_loop env threshold (now + 1000) deadline (k + 1)
    | none => CurrencyChain.wait_loop env threshold (now + 1000) deadline (k + 1)
  else (.timedOut, k)
termination_by deadline - now
decreasing_by all_goals omega

/-- Mirrors CurrencyChainClient.wait_for_confirmation (currency_chain.py
lines 152-162). -/
def CurrencyChain.wait_for_confirmation
    (env : Nat → HttpResponse CurrencyChainTransaction)
    (threshold maxWaitMs : Nat) : ChainWaitResult CurrencyChainTransaction × Nat :=
  CurrencyChain.wait_loop env threshold 0 maxWaitMs 0

/-- Mirrors enum CrossChainStatus (cross_chain.py lines 13-20). -/
inductive CrossChainStatus where
  | pending
  | chat_chain_confirmed
  | currency_chain_confirmed
  | atomic_success
  | rolled_back
  | failed
deriving DecidableEq, Repr

/-- The .value string of each CrossChainStatus member. -/
def CrossChainStatus.value : CrossChainStatus → String
  | .pending => "pending"
  | .chat_chain_confirmed => "chat_chain_confirmed"
  | .currency_chain_confirmed => "currency_chain_confirmed"
  | .atomic_success => "atomic_success"
  | .rolled_back => "rolled_back"
  | .failed => "failed"

/-- Mirrors dataclass CrossChainTransaction (cross_chain.py lines 23-33);
status is the raw string the bridge reports. -/
structure CrossChainTransaction where
  id : String
  operation : String
  user_id : String
  chat_chain_tx : Option String
  currency_chain_tx : Option String
  status : String
  created_at : Nat
  finalized_at : Option Nat
deriving DecidableEq, Repr

/-- Mirrors CrossChainBridge.get_status (cross_chain.py lines 83-93):
404 -> None, any other httpx.HTTPError (including raise_for_status on
4xx/5xx) -> None, otherwise the body parses to a transaction. -/
def CrossChainBridge.get_status (resp : HttpResponse CrossChainTransaction) :
    Option CrossChainTransaction :=
  match resp with
  | .exn => none
  | .status code tx =>
    if code = 404 then none
    else if 400 ≤ code then none
    else some tx

/-- Outcome of CrossChainBridge.wait_for_atomic_completion: the returned
transaction, the RuntimeError carrying the terminal failure status, or the
TimeoutError. -/
inductive AtomicWaitResult where
  | returned : CrossChainTransaction → AtomicWaitResult
  | atomicFailure : String → AtomicWaitResult
  | timedOut : AtomicWaitResult
deriving DecidableEq, Repr

/-- The polling loop of CrossChainBridge.wait_for_atomic_completion
(cross_chain.py lines 102-114): while elapsed ms < max_wait_ms, fetch the
bridge status for poll k; return the transaction when its status equals
"atomic_success"; raise RuntimeError when the status is in
["failed", "rolled_back"]; otherwise sleep 1 second and poll again; past
the deadline raise TimeoutError. -/
def CrossChainBridge.wait_loop (env : Nat → HttpResponse CrossChainTransaction)
    (now deadline k : Nat) : AtomicWaitResult × Nat :=
  if h : now < deadline then
    match CrossChainBridge.get_status (env k) with
    | some tx =>
      if tx.status = CrossChainStatus.atomic_success.value then (.returned tx, k + 1)
      else if tx.status ∈ [CrossChainStatus.failed.value, CrossChainStatus.rolled_back.value] then
        (.atomicFailure tx.status, k + 1)
      else CrossChainBridge.wait_loop env (now + 1000) deadline (k + 1)
    | none => CrossChainBridge.wait_loop env (now + 1000) deadline (k + 1)
  else (.timedOut, k)
termination_by deadline - now
decreasing_by all_goals omega

/-- The default max_wait_ms of wait_for_atomic_completion (60000 ms). -/
def CrossChainBridge.defaultMaxWaitMs : Nat := 60000

/-- Mirrors CrossChainBridge.wait_for_atomic_completion (cross_chain.py
lines 102-114), starting the clock at 0 with deadline maxWaitMs. -/
def CrossChainBridge.wait_for_atomic_completion
    (env : Nat → HttpResponse CrossChainTransaction) (maxWaitMs : Nat) :
    AtomicWaitResult × Nat :=
  CrossChainBridge.wait_loop env 0 maxWaitMs 0

/-! ### Analysis predicates (not part of the source; used to state properties) -/

/-- A poll outcome on which the client loop stops: a receipt with success
or a truthy error. -/
def receiptDecides (o : Option TransactionReceipt) : Bool :=
  match o with
  | some r => r.success || strTruthy r.error
  | none => false

/-- A poll outcome on which the chat-chain loop stops: a transaction with
enough confirmations. -/
def ChatChain.decides (threshold : Nat) (o : Option ChatChainTransaction) : Bool :=
  match o with
  | some tx => threshold ≤ tx.confirmations
  | none => false

/-- A poll outcome on which the currency-chain loop stops. -/
def CurrencyChain.decides (threshold : Nat) (o : Option CurrencyChainTransaction) : Bool :=
  match o with
  | some tx => threshold ≤ tx.confirmations
  | none => false

/-- A bridge transaction in a terminal status. -/
def atomicTerminal (tx : CrossChainTransaction) : Bool :=
  tx.status = CrossChainStatus.atomic_success.value ||
  tx.status = CrossChainStatus.failed.value ||
  tx.status = CrossChainStatus.rolled_back.value

/-- A poll outcome on which the bridge loop stops. -/
def atomicDecides (o : Option CrossChainTransaction) : Bool :=
  match o with
  | some tx => atomicTerminal tx
  | none => false

/-! ### Concrete inputs used by counterexamples and witnesses -/

/-- A wire result carrying both success = true and a non-null error. -/
def resBoth : ReceiptResult :=
  ⟨"t2", "h2", true, none, none, none, some "boom"⟩

/-- An environment whose ledger always answers with resBoth. -/
def envBoth : Nat → FetchResponse ReceiptResult :=
  fun _ => .status 200 (some resBoth)

/-- The receipt built from resBoth. -/
def rBoth : TransactionReceipt :=
  ⟨"t2", "h2", true, none, none, none, some "boom"⟩

/-- A wire result reporting failure (error set, success false). -/
def resErr : ReceiptResult :=
  ⟨"t3", "h3", false, none, none, none, some "insufficient"⟩

/-- An environment whose ledger always answers with resErr. -/
def envErr : Nat → FetchResponse ReceiptResult :=
  fun _ => .status 200 (some resErr)

/-- The receipt built from resErr. -/
def rErr : TransactionReceipt :=
  ⟨"t3", "h3", false, none, none, none, some "insufficient"⟩

/-- A pending wire result (success false, no error). -/
def resPending : ReceiptResult :=
  ⟨"u1", "h1", false, none, none, none, none⟩

/-- The confirmed wire result of the three-poll scenario (block height 10). -/
def resConfirmed : ReceiptResult :=
  ⟨"u1", "h1", true, some 10, none, none, none⟩

/-- A ledger that reports pending twice and then the confirmed receipt. -/
def envThree : Nat → FetchResponse ReceiptResult :=
  fun k => if k < 2 then .status 200 (some resPending) else .status 200 (some resConfirmed)

/-- The receipt built from resConfirmed. -/
def receiptConfirmed : TransactionReceipt :=
  ⟨"u1", "h1", true, some 10, none, none, none⟩

/-- A chat-chain transaction the ledger reports as failed, with zero
confirmations. -/
def chatTxFailedStatus : ChatChainTransaction :=
  ⟨"t4", "register_user", "alice", [], "failed", 0, 5, 0⟩

/-- A currency-chain transaction the ledger reports as failed. -/
def currencyTxFailedStatus : CurrencyChainTransaction :=
  ⟨"t4c", "payment", "alice", some "bob", 7, "failed", 0, 5, 0⟩

/-- A chat-chain transaction with 6 confirmations. -/
def chatTxConfirmed : ChatChainTransaction :=
  ⟨"t5", "register_user", "alice", [], "confirmed", 6, 9, 0⟩

/-- A bridge transaction in status atomic_success. -/
def bridgeTxSuccess : CrossChainTransaction :=
  ⟨"b1", "register_user_with_stake", "alice", some "c1", some "m1",
   "atomic_success", 0, some 42⟩

/-- A bridge transaction in status rolled_back. -/
def bridgeTxRolledBack : CrossChainTransaction :=
  ⟨"b2", "register_user_with_stake", "alice", some "c2", none,
   "rolled_back", 0, some 43⟩

/-- A wire result with success = true and error = some "oops", violating
the receipt exclusivity invariant. -/
def resInv : ReceiptResult :=
  ⟨"t9", "h9", true, none, none, none, some "oops"⟩

/-- The receipt built from resInv. -/
def rInv : TransactionReceipt :=
  ⟨"t9", "h9", true, none, none, none, some "oops"⟩

/-! ### Step lemmas for the client polling loop -/

theorem cacheLookup_cacheInsert (cache : List (String × TransactionReceipt))
    (txId : String) (r : TransactionReceipt) :
    cacheLookup (cacheInsert cache txId r) txId = some r := by
  induction cache with
  | nil => simp [cacheInsert, cacheLookup]
  | cons kv rest ih =>
    obtain ⟨k, v⟩ := kv
    by_cases hk : k = txId
    · simp [cacheInsert, hk, cacheLookup]
    · simp [cacheInsert, hk, cacheLookup, ih]

theorem wait_loop_step_timeout (env : Nat → FetchResponse ReceiptResult)
    (txId : String) (cache : List (String × TransactionReceipt))
    (now deadline k : Nat) (h : ¬ now < deadline) :
    wait_loop env txId cache now deadline k = ⟨.timedOut, cache, k⟩ := by
  rw [wait_loop.eq_def, dif_neg h]

theorem wait_loop_step_success (env : Nat → FetchResponse ReceiptResult)
    (txId : String) (cache : List (String × TransactionReceipt))
    (now deadline k : Nat) (hlt : now < deadline)
    (r0 : TransactionReceipt) (hr : get_transaction_receipt (env k) = some r0)
    (hs : r0.success = true) :
    wait_loop env txId cache now deadline k =
      ⟨.returned r0, cacheInsert cache txId r0, k + 1⟩ := by
  rw [wait_loop.eq_def, dif_pos hlt, hr]
  simp [hs]

theorem wait_loop_step_error (env : Nat → FetchResponse ReceiptResult)
    (txId : String) (cache : List (String × TransactionReceipt))
    (now deadline k : Nat) (hlt : now < deadline)
    (r0 : TransactionReceipt) (hr : get_transaction_receipt (env k) = some r0)
    (hs : r0.success = false) (he : strTruthy r0.error = true) :
    wait_loop env txId cache now deadline k =
      ⟨.txFailed (r0.error.getD ""), cacheInsert cache txId r0, k + 1⟩ := by
  rw [wait_loop.eq_def, dif_pos hlt, hr]
  simp [hs, he]

theorem wait_loop_step_pending (env : Nat → FetchResponse ReceiptResult)
    (txId : String) (cache : List (String × TransactionReceipt))
    (now deadline k : Nat) (hlt : now < deadline)
    (r0 : TransactionReceipt) (hr : get_transaction_receipt (env k) = some r0)
    (hs : r0.success = false) (he : strTruthy r0.error = false) :
    wait_loop env txId cache now deadline k =
      wait_loop env txId (cacheInsert cache txId r0) (now + 2) deadline (k + 1) := by
  rw [wait_loop.eq_def, dif_pos hlt, hr]
  simp [hs, he]

theorem wait_loop_step_none (env : Nat → FetchResponse ReceiptResult)
    (txId : String) (cache : List (String × TransactionReceipt))
    (now deadline k : Nat) (hlt : now < deadline)
    (hr : get_transaction_receipt (env k) = none) :
    wait_loop env txId cache now deadline k =
      wait_loop env txId cache (now + 2) deadline (k + 1) := by
  rw [wait_loop.eq_def, dif_pos hlt, hr]

/-! ### Behaviour of the client polling loop -/

theorem wait_loop_returned_sound (env : Nat → FetchResponse ReceiptResult)
    (txId : String) (deadline : Nat) :
    ∀ fuel cache now k, deadline - now ≤ fuel →
    ∀ r c n, wait_loop env txId cache now deadline k = ⟨.returned r, c, n⟩ →
      r.success = true ∧ cacheLookup c txId = some r ∧
      ∃ j, k ≤ j ∧ get_transaction_receipt (env j) = some r ∧ n = j + 1 := by
  intro fuel
  induction fuel with
  | zero =>
    intro cache now k hfuel r c n heq
    rw [wait_loop_step_timeout env txId cache now deadline k (by omega)] at heq
    simp at heq
  | succ fuel ih =>
    intro cache now k hfuel r c n heq
    by_cases hlt : now < deadline
    · cases hr : get_transaction_receipt (env k) with
      | some r0 =>
        by_cases hs : r0.success = true
        · rw [wait_loop_step_success env txId cache now deadline k hlt r0 hr hs] at heq
          obtain ⟨h1, h2, h3⟩ := by simpa using heq
          subst h1 h2 h3
          exact ⟨hs, cacheLookup_cacheInsert cache txId r0, k, le_refl k, hr, rfl⟩
        · rw [Bool.not_eq_true] at hs
          by_cases he : strTruthy r0.error = true
          · rw [wait_loop_step_error env txId cache now deadline k hlt r0 hr hs he] at heq
            simp at heq
          · rw [Bool.not_eq_true] at he
            rw [wait_loop_step_pending env txId cache now deadline k hlt r0 hr hs he] at heq
            obtain ⟨hr1, hr2, j, hj, hgj, hn⟩ :=
              ih (cacheInsert cache txId r0) (now + 2) (k + 1) (by omega) r c n heq
            exact ⟨hr1, hr2, j, by omega, hgj, hn⟩
      | none =>
        rw [wait_loop_step_none env txId cache now deadline k hlt hr] at heq
        obtain ⟨hr1, hr2, j, hj, hgj, hn⟩ :=
          ih cache (now + 2) (k + 1) (by omega) r c n heq
        exact ⟨hr1, hr2, j, by omega, hgj, hn⟩
    · rw [wait_loop_step_timeout env txId cache now deadline k hlt] at heq
      simp at heq

theorem wait_loop_txFailed_sound (env : Nat → FetchResponse ReceiptResult)
    (txId : String) (deadline : Nat) :
    ∀ fuel cache now k, deadline - now ≤ fuel →
    ∀ s c n, wait_loop env txId cache now deadline k = ⟨.txFailed s, c, n⟩ →
      ∃ r j, k ≤ j ∧ get_transaction_receipt (env j) = some r ∧
        r.success = false ∧ r.error = some s ∧ s ≠ "" ∧
        cacheLookup c txId = some r ∧ n = j + 1 := by
  intro fuel
  induction fuel with
  | zero =>
    intro cache now k hfuel s c n heq
    rw [wait_loop_step_timeout env txId cache now deadline k (by omega)] at heq
    simp at heq
  | succ fuel ih =>
    intro cache now k hfuel s c n heq
    by_cases hlt : now < deadline
    · cases hr : get_transaction_receipt (env k) with
      | some r0 =>
        by_cases hs : r0.success = true
        · rw [wait_loop_step_success env txId cache now deadline k hlt r0 hr hs] at heq
          simp at heq
        · rw [Bool.not_eq_true] at hs
          by_cases he : strTruthy r0.error = true
          · rw [wait_loop_step_error env txId cache now deadline k hlt r0 hr hs he] at heq
            obtain ⟨h1, h2, h3⟩ := by simpa using heq
            obtain ⟨t, ht⟩ : ∃ t, r0.error = some t := by
              cases hh : r0.error with
              | none => rw [hh] at he; simp [strTruthy] at he
              | some t => exact ⟨t, rfl⟩
            have htne : t ≠ "" := by
              rw [ht] at he; simpa [strTruthy] using he
            have hst : s = t := by rw [← h1, ht]; rfl
            subst h2 h3
            exact ⟨r0, k, le_refl k, hr, hs, by rw [ht, hst], by rw [hst]; exact htne,
              cacheLookup_cacheInsert cache txId r0, rfl⟩
          · rw [Bool.not_eq_true] at he
            rw [wait_loop_step_pending env txId cache now deadline k hlt r0 hr hs he] at heq
            obtain ⟨r, j, hj, hgj, h1, h2, h3, h4, h5⟩ :=
              ih (cacheInsert cache txId r0) (now + 2) (k + 1) (by omega) s c n heq
            exact ⟨r, j, by omega, hgj, h1, h2, h3, h4, h5⟩
      | none =>
        rw [wait_loop_step_none env txId cache now deadline k hlt hr] at heq
        obtain ⟨r, j, hj, hgj, h1, h2, h3, h4, h5⟩ :=
          ih cache (now + 2) (k + 1) (by omega) s c n heq
        exact ⟨r, j, by omega, hgj, h1, h2, h3, h4, h5⟩
    · rw [wait_loop_step_timeout env txId cache now deadline k hlt] at heq
      simp at heq

theorem wait_loop_no_decide (env : Nat → FetchResponse ReceiptResult)
    (txId : String) (deadline : Nat) :
    ∀ fuel cache now k, deadline - now ≤ fuel →
    (∀ i, receiptDecides (get_transaction_receipt (env (k + i))) = false) →
    (wait_loop env txId cache now deadline k).result = .timedOut := by
  intro fuel
  induction fuel with
  | zero =>
    intro cache now k hfuel hnd
    rw [wait_loop_step_timeout env txId cache now deadline k (by omega)]
  | succ fuel ih =>
    intro cache now k hfuel hnd
    by_cases hlt : now < deadline
    · have h0 := hnd 0
      cases hr : get_transaction_receipt (env k) with
      | some r0 =>
        rw [Nat.add_zero, hr] at h0
        simp only [receiptDecides, Bool.or_eq_false_iff] at h0
        obtain ⟨hs, he⟩ := h0
        rw [wait_loop_step_pending env txId cache now deadline k hlt r0 hr hs he]
        exact ih (cacheInsert cache txId r0) (now + 2) (k + 1) (by omega)
          (fun i => by have := hnd (i + 1); rwa [show k + (i + 1) = k + 1 + i by omega] at this)
      | none =>
        rw [wait_loop_step_none env txId cache now deadline k hlt hr]
        exact ih cache (now + 2) (k + 1) (by omega)
          (fun i => by have := hnd (i + 1); rwa [show k + (i + 1) = k + 1 + i by omega] at this)
    · rw [wait_loop_step_timeout env txId cache now deadline k hlt]

theorem wait_loop_polls_le (env : Nat → FetchResponse ReceiptResult)
    (txId : String) (deadline : Nat) :
    ∀ fuel cache now k, deadline - now ≤ fuel →
    (wait_loop env txId cache now deadline k).polls ≤ k + (deadline - now + 1) / 2 := by
  intro fuel
  induction fuel with
  | zero =>
    intro cache now k hfuel
    rw [wait_loop_step_timeout env txId cache now deadline k (by omega)]
    simp
  | succ fuel ih =>
    intro cache now k hfuel
    by_cases hlt : now < deadline
    · cases hr : get_transaction_receipt (env k) with
      | some r0 =>
        by_cases hs : r0.success = true
        · rw [wait_loop_step_success env txId cache now deadline k hlt r0 hr hs]
          simp only
          omega
        · rw [Bool.not_eq_true] at hs
          by_cases he : strTruthy r0.error = true
          · rw [wait_loop_step_error env txId cache now deadline k hlt r0 hr hs he]
            simp only
            omega
          · rw [Bool.not_eq_true] at he
            rw [wait_loop_step_pending env txId cache now deadline k hlt r0 hr hs he]
            have := ih (cacheInsert cache txId r0) (now + 2) (k + 1) (by omega)
            omega
      | none =>
        rw [wait_loop_step_none env txId cache now deadline k hlt hr]
        have := ih cache (now + 2) (k + 1) (by omega)
        omega
    · rw [wait_loop_step_timeout env txId cache now deadline k hlt]
      simp

theorem wait_loop_first_decide (env : Nat → FetchResponse ReceiptResult)
    (txId : String) (deadline : Nat) :
    ∀ j cache now k,
    (∀ i, i < j → receiptDecides (get_transaction_receipt (env (k + i))) = false) →
    now + 2 * j < deadline →
    ∀ r, get_transaction_receipt (env (k + j)) = some r →
    (r.success || strTruthy r.error) = true →
    ∃ c, wait_loop env txId cache now deadline k =
      ⟨if r.success then .returned r else .txFailed (r.error.getD ""), c, k + j + 1⟩ ∧
      cacheLookup c txId = some r := by
  intro j
  induction j with
  | zero =>
    intro cache now k hnd hdl r hr hterm
    have hlt : now < deadline := by omega
    rw [Nat.add_zero] at hr
    by_cases hs : r.success = true
    · refine ⟨cacheInsert cache txId r, ?_, cacheLookup_cacheInsert cache txId r⟩
      rw [wait_loop_step_success env txId cache now deadline k hlt r hr hs, if_pos hs]
    · rw [Bool.not_eq_true] at hs
      have he : strTruthy r.error = true := by
        rcases Bool.or_eq_true_iff.mp hterm with h | h
        · rw [hs] at h; exact absurd h (by simp)
        · exact h
      refine ⟨cacheInsert cache txId r, ?_, cacheLookup_cacheInsert cache txId r⟩
      rw [wait_loop_step_error env txId cache now deadline k hlt r hr hs he,
        if_neg (by rw [hs]; simp)]
  | succ j ih =>
    intro cache now k hnd hdl r hr hterm
    have hlt : now < deadline := by omega
    have h0 := hnd 0 (by omega)
    cases hr0 : get_transaction_receipt (env k) with
    | some r0 =>
      rw [Nat.add_zero, hr0] at h0
      simp only [receiptDecides, Bool.or_eq_false_iff] at h0
      obtain ⟨hs0, he0⟩ := h0
      rw [wait_loop_step_pending env txId cache now deadline k hlt r0 hr0 hs0 he0]
      obtain ⟨c, hc, hcl⟩ := ih (cacheInsert cache txId r0) (now + 2) (k + 1)
        (fun i hi => by
          have := hnd (i + 1) (by omega)
          rwa [show k + (i + 1) = k + 1 + i by omega] at this)
        (by omega) r (by rwa [show k + 1 + j = k + (j + 1) by omega]) hterm
      refine ⟨c, ?_, hcl⟩
      rw [hc, show k + 1 + j + 1 = k + (j + 1) + 1 by omega]
    | none =>
      rw [wait_loop_step_none env txId cache now deadline k hlt hr0]
      obtain ⟨c, hc, hcl⟩ := ih cache (now + 2) (k + 1)
        (fun i hi => by
          have := hnd (i + 1) (by omega)
          rwa [show k + (i + 1) = k + 1 + i by omega] at this)
        (by omega) r (by rwa [show k + 1 + j = k + (j + 1) by omega]) hterm
      refine ⟨c, ?_, hcl⟩
      rw [hc, show k + 1 + j + 1 = k + (j + 1) + 1 by omega]

/-! ### Step lemmas and behaviour of the chat-chain polling loop -/

theorem ChatChain.chat_loop_step_timeout (env : Nat → HttpResponse ChatChainTransaction)
    (threshold now deadline k : Nat) (h : ¬ now < deadline) :
    ChatChain.wait_loop env threshold now deadline k = (.timedOut, k) := by
  rw [ChatChain.wait_loop.eq_def, dif_neg h]

theorem ChatChain.chat_loop_step_returned (env : Nat → HttpResponse ChatChainTransaction)
    (threshold now deadline k : Nat) (hlt : now < deadline)
    (tx : ChatChainTransaction) (hr : ChatChain.get_transaction (env k) = some tx)
    (hc : threshold ≤ tx.confirmations) :
    ChatChain.wait_loop env threshold now deadline k = (.returned tx, k + 1) := by
  rw [ChatChain.wait_loop.eq_def, dif_pos hlt, hr]
  simp [hc]

theorem ChatChain.chat_loop_step_low (env : Nat → HttpResponse ChatChainTransaction)
    (threshold now deadline k : Nat) (hlt : now < deadline)
    (tx : ChatChainTransaction) (hr : ChatChain.get_transaction (env k) = some tx)
    (hc : ¬ threshold ≤ tx.confirmations) :
    ChatChain.wait_loop env threshold now deadline k =
      ChatChain.wait_loop env threshold (now + 1000) deadline (k + 1) := by
  rw [ChatChain.wait_loop.eq_def, dif_pos hlt, hr]
  simp [hc]

theorem ChatChain.chat_loop_step_none (env : Nat → HttpResponse ChatChainTransaction)
    (threshold now deadline k : Nat) (hlt : now < deadline)
    (hr : ChatChain.get_transaction (env k) = none) :
    ChatChain.wait_loop env threshold now deadline k =
      ChatChain.wait_loop env threshold (now + 1000) deadline (k + 1) := by
  rw [ChatChain.wait_loop.eq_def, dif_pos hlt, hr]

theorem ChatChain.chat_loop_returned_sound (env : Nat → HttpResponse ChatChainTransaction)
    (threshold deadline : Nat) :
    ∀ fuel now k, deadline - now ≤ fuel →
    ∀ tx n, ChatChain.wait_loop env threshold now deadline k = (.returned tx, n) →
      threshold ≤ tx.confirmations ∧
      ∃ j, k ≤ j ∧ ChatChain.get_transaction (env j) = some tx ∧ n = j + 1 := by
  intro fuel
  induction fuel with
  | zero =>
    intro now k hfuel tx n heq
    rw [ChatChain.chat_loop_step_timeout env threshold now deadline k (by omega)] at heq
    simp at heq
  | succ fuel ih =>
    intro now k hfuel tx n heq
    by_cases hlt : now < deadline
    · cases hr : ChatChain.get_transaction (env k) with
      | some tx0 =>
        by_cases hc : threshold ≤ tx0.confirmations
        · rw [ChatChain.chat_loop_step_returned env threshold now deadline k hlt tx0 hr hc] at heq
          obtain ⟨h1, h2⟩ := by simpa using heq
          subst h1 h2
          exact ⟨hc, k, le_refl k, hr, rfl⟩
        · rw [ChatChain.chat_loop_step_low env threshold now deadline k hlt tx0 hr hc] at heq
          obtain ⟨h1, j, hj, hgj, hn⟩ := ih (now + 1000) (k + 1) (by omega) tx n heq
          exact ⟨h1, j, by omega, hgj, hn⟩
      | none =>
        rw [ChatChain.chat_loop_step_none env threshold now deadline k hlt hr] at heq
        obtain ⟨h1, j, hj, hgj, hn⟩ := ih (now + 1000) (k + 1) (by omega) tx n heq
        exact ⟨h1, j, by omega, hgj, hn⟩
    · rw [ChatChain.chat_loop_step_timeout env threshold now deadline k hlt] at heq
      simp at heq

theorem ChatChain.chat_loop_no_decide (env : Nat → HttpResponse ChatChainTransaction)
    (threshold deadline : Nat) :
    ∀ fuel now k, deadline - now ≤ fuel →
    (∀ i, ChatChain.decides threshold (ChatChain.get_transaction (env (k + i))) = false) →
    (ChatChain.wait_loop env threshold now deadline k).1 = .timedOut := by
  intro fuel
  induction fuel with
  | zero =>
    intro now k hfuel hnd
    rw [ChatChain.chat_loop_step_timeout env threshold now deadline k (by omega)]
  | succ fuel ih =>
    intro now k hfuel hnd
    by_cases hlt : now < deadline
    · have h0 := hnd 0
      cases hr : ChatChain.get_transaction (env k) with
      | some tx0 =>
        rw [Nat.add_zero, hr] at h0
        simp only [ChatChain.decides, decide_eq_false_iff_not] at h0
        rw [ChatChain.chat_loop_step_low env threshold now deadline k hlt tx0 hr h0]
        exact ih (now + 1000) (k + 1) (by omega)
          (fun i => by have := hnd (i + 1); rwa [show k + (i + 1) = k + 1 + i by omega] at this)
      | none =>
        rw [ChatChain.chat_loop_step_none env threshold now deadline k hlt hr]
        exact ih (now + 1000) (k + 1) (by omega)
          (fun i => by have := hnd (i + 1); rwa [show k + (i + 1) = k + 1 + i by omega] at this)
    · rw [ChatChain.chat_loop_step_timeout env threshold now deadline k hlt]

theorem ChatChain.chat_loop_first_decide (env : Nat → HttpResponse ChatChainTransaction)
    (threshold deadline : Nat) :
    ∀ j now k,
    (∀ i, i < j → ChatChain.decides threshold (ChatChain.get_transaction (env (k + i))) = false) →
    now + 1000 * j < deadline →
    ∀ tx, ChatChain.get_transaction (env (k + j)) = some tx →
    threshold ≤ tx.confirmations →
    ChatChain.wait_loop env threshold now deadline k = (.returned tx, k + j + 1) := by
  intro j
  induction j with
  | zero =>
    intro now k hnd hdl tx hr hc
    rw [Nat.add_zero] at hr
    exact ChatChain.chat_loop_step_returned env threshold now deadline k (by omega) tx hr hc
  | succ j ih =>
    intro now k hnd hdl tx hr hc
    have hlt : now < deadline := by omega
    have h0 := hnd 0 (by omega)
    cases hr0 : ChatChain.get_transaction (env k) with
    | some tx0 =>
      rw [Nat.add_zero, hr0] at h0
      simp only [ChatChain.decides, decide_eq_false_iff_not] at h0
      rw [ChatChain.chat_loop_step_low env threshold now deadline k hlt tx0 hr0 h0]
      have := ih (now + 1000) (k + 1)
        (fun i hi => by
          have := hnd (i + 1) (by omega)
          rwa [show k + (i + 1) = k + 1 + i by omega] at this)
        (by omega) tx (by rwa [show k + 1 + j = k + (j + 1) by omega]) hc
      rw [this, show k + 1 + j + 1 = k + (j + 1) + 1 by omega]
    | none =>
      rw [ChatChain.chat_loop_step_none env threshold now deadline k hlt hr0]
      have := ih (now + 1000) (k + 1)
        (fun i hi => by
          have := hnd (i + 1) (by omega)
          rwa [show k + (i + 1) = k + 1 + i by omega] at this)
        (by omega) tx (by rwa [show k + 1 + j = k + (j + 1) by omega]) hc
      rw [this, show k + 1 + j + 1 = k + (j + 1) + 1 by omega]

/-! ### Step lemmas and behaviour of the currency-chain polling loop -/

theorem CurrencyChain.currency_loop_step_timeout (env : Nat → HttpResponse CurrencyChainTransaction)
    (threshold now deadline k : Nat) (h : ¬ now < deadline) :
    CurrencyChain.wait_loop env threshold now deadline k = (.timedOut, k) := by
  rw [CurrencyChain.wait_loop.eq_def, dif_neg h]

theorem CurrencyChain.currency_loop_step_returned (env : Nat → HttpResponse CurrencyChainTransaction)
    (threshold now deadline k : Nat) (hlt : now < deadline)
    (tx : CurrencyChainTransaction) (hr : CurrencyChain.get_transaction (env k) = some tx)
    (hc : threshold ≤ tx.confirmations) :
    CurrencyChain.wait_loop env threshold now deadline k = (.returned tx, k + 1) := by
  rw [CurrencyChain.wait_loop.eq_def, dif_pos hlt, hr]
  simp [hc]

theorem CurrencyChain.currency_loop_step_low (env : Nat → HttpResponse CurrencyChainTransaction)
    (threshold now deadline k : Nat) (hlt : now < deadline)
    (tx : CurrencyChainTransaction) (hr : CurrencyChain.get_transaction (env k) = some tx)
    (hc : ¬ threshold ≤ tx.confirmations) :
    CurrencyChain.wait_loop env threshold now deadline k =
      CurrencyChain.wait_loop env threshold (now + 1000) deadline (k + 1) := by
  rw [CurrencyChain.wait_loop.eq_def, dif_pos hlt, hr]
  simp [hc]

theorem CurrencyChain.currency_loop_step_none (env : Nat → HttpResponse CurrencyChainTransaction)
    (threshold now deadline k : Nat) (hlt : now < deadline)
    (hr : CurrencyChain.get_transaction (env k) = none) :
    CurrencyChain.wait_loop env threshold now deadline k =
      CurrencyChain.wait_loop env threshold (now + 1000) deadline (k + 1) := by
  rw [CurrencyChain.wait_loop.eq_def, dif_pos hlt, hr]

theorem CurrencyChain.currency_loop_returned_sound (env : Nat → HttpResponse CurrencyChainTransaction)
    (threshold deadline : Nat) :
    ∀ fuel now k, deadline - now ≤ fuel →
    ∀ tx n, CurrencyChain.wait_loop env threshold now deadline k = (.returned tx, n) →
      threshold ≤ tx.confirmations ∧
      ∃ j, k ≤ j ∧ CurrencyChain.get_transaction (env j) = some tx ∧ n = j + 1 := by
  intro fuel
  induction fuel with
  | zero =>
    intro now k hfuel tx n heq
    rw [CurrencyChain.currency_loop_step_timeout env threshold now deadline k (by omega)] at heq
    simp at heq
  | succ fuel ih =>
    intro now k hfuel tx n heq
    by_cases hlt : now < deadline
    · cases hr : CurrencyChain.get_transaction (env k) with
      | some tx0 =>
        by_cases hc : threshold ≤ tx0.confirmations
        · rw [CurrencyChain.currency_loop_step_returned env threshold now deadline k hlt tx0 hr hc] at heq
          obtain ⟨h1, h2⟩ := by simpa using heq
          subst h1 h2
          exact ⟨hc, k, le_refl k, hr, rfl⟩
        · rw [CurrencyChain.currency_loop_step_low env threshold now deadline k hlt tx0 hr hc] at heq
          obtain ⟨h1, j, hj, hgj, hn⟩ := ih (now + 1000) (k + 1) (by omega) tx n heq
          exact ⟨h1, j, by omega, hgj, hn⟩
      | none =>
        rw [CurrencyChain.currency_loop_step_none env threshold now deadline k hlt hr] at heq
        obtain ⟨h1, j, hj, hgj, hn⟩ := ih (now + 1000) (k + 1) (by omega) tx n heq
        exact ⟨h1, j, by omega, hgj, hn⟩
    · rw [CurrencyChain.currency_loop_step_timeout env threshold now deadline k hlt] at heq
      simp at heq

theorem CurrencyChain.currency_loop_no_decide (env : Nat → HttpResponse CurrencyChainTransaction)
    (threshold deadline : Nat) :
    ∀ fuel now k, deadline - now ≤ fuel →
    (∀ i, CurrencyChain.decides threshold (CurrencyChain.get_transaction (env (k + i))) = false) →
    (CurrencyChain.wait_loop env threshold now deadline k).1 = .timedOut := by
  intro fuel
  induction fuel with
  | zero =>
    intro now k hfuel hnd
    rw [CurrencyChain.currency_loop_step_timeout env threshold now deadline k (by omega)]
  | succ fuel ih =>
    intro now k hfuel hnd
    by_cases hlt : now < deadline
    · have h0 := hnd 0
      cases hr : CurrencyChain.get_transaction (env k) with
      | some tx0 =>
        rw [Nat.add_zero, hr] at h0
        simp only [CurrencyChain.decides, decide_eq_false_iff_not] at h0
        rw [CurrencyChain.currency_loop_step_low env threshold now deadline k hlt tx0 hr h0]
        exact ih (now + 1000) (k + 1) (by omega)
          (fun i => by have := hnd (i + 1); rwa [show k + (i + 1) = k + 1 + i by omega] at this)
      | none =>
        rw [CurrencyChain.currency_loop_step_none env threshold now deadline k hlt hr]
        exact ih (now + 1000) (k + 1) (by omega)
          (fun i => by have := hnd (i + 1); rwa [show k + (i + 1) = k + 1 + i by omega] at this)
    · rw [CurrencyChain.currency_loop_step_timeout env threshold now deadline k hlt]

theorem CurrencyChain.currency_loop_first_decide (env : Nat → HttpResponse CurrencyChainTransaction)
    (threshold deadline : Nat) :
    ∀ j now k,
    (∀ i, i < j → CurrencyChain.decides threshold (CurrencyChain.get_transaction (env (k + i))) = false) →
    now + 1000 * j < deadline →
    ∀ tx, CurrencyChain.get_transaction (env (k + j)) = some tx →
    threshold ≤ tx.confirmations →
    CurrencyChain.wait_loop env threshold now deadline k = (.returned tx, k + j + 1) := by
  intro j
  induction j with
  | zero =>
    intro now k hnd hdl tx hr hc
    rw [Nat.add_zero] at hr
    exact CurrencyChain.currency_loop_step_returned env threshold now deadline k (by omega) tx hr hc
  | succ j ih =>
    intro now k hnd hdl tx hr hc
    have hlt : now < deadline := by omega
    have h0 := hnd 0 (by omega)
    cases hr0 : CurrencyChain.get_transaction (env k) with
    | some tx0 =>
      rw [Nat.add_zero, hr0] at h0
      simp only [CurrencyChain.decides, decide_eq_false_iff_not] at h0
      rw [CurrencyChain.currency_loop_step_low env threshold now deadline k hlt tx0 hr0 h0]
      have := ih (now + 1000) (k + 1)
        (fun i hi => by
          have := hnd (i + 1) (by omega)
          rwa [show k + (i + 1) = k + 1 + i by omega] at this)
        (by omega) tx (by rwa [show k + 1 + j = k + (j + 1) by omega]) hc
      rw [this, show k + 1 + j + 1 = k + (j + 1) + 1 by omega]
    | none =>
      rw [CurrencyChain.currency_loop_step_none env threshold now deadline k hlt hr0]
      have := ih (now + 1000) (k + 1)
        (fun i hi => by
          have := hnd (i + 1) (by omega)
          rwa [show k + (i + 1) = k + 1 + i by omega] at this)
        (by omega) tx (by rwa [show k + 1 + j = k + (j + 1) by omega]) hc
      rw [this, show k + 1 + j + 1 = k + (j + 1) + 1 by omega]


/-! ### Step lemmas and behaviour of the bridge polling loop -/

theorem CrossChainBridge.bridge_loop_step_timeout
    (env : Nat → HttpResponse CrossChainTransaction)
    (now deadline k : Nat) (h : ¬ now < deadline) :
    CrossChainBridge.wait_loop env now deadline k = (.timedOut, k) := by
  rw [CrossChainBridge.wait_loop.eq_def, dif_neg h]

theorem CrossChainBridge.bridge_loop_step_success
    (env : Nat → HttpResponse CrossChainTransaction)
    (now deadline k : Nat) (hlt : now < deadline)
    (tx : CrossChainTransaction) (hr : CrossChainBridge.get_status (env k) = some tx)
    (hs : tx.status = CrossChainStatus.atomic_success.value) :
    CrossChainBridge.wait_loop env now deadline k = (.returned tx, k + 1) := by
  rw [CrossChainBridge.wait_loop.eq_def, dif_pos hlt, hr]
  simp [hs]

theorem CrossChainBridge.bridge_loop_step_failure
    (env : Nat → HttpResponse CrossChainTransaction)
    (now deadline k : Nat) (hlt : now < deadline)
    (tx : CrossChainTransaction) (hr : CrossChainBridge.get_status (env k) = some tx)
    (hns : tx.status ≠ CrossChainStatus.atomic_success.value)
    (hf : tx.status = CrossChainStatus.failed.value ∨
          tx.status = CrossChainStatus.rolled_back.value) :
    CrossChainBridge.wait_loop env now deadline k = (.atomicFailure tx.status, k + 1) := by
  rw [CrossChainBridge.wait_loop.eq_def, dif_pos hlt, hr]
  rcases hf with h | h <;> simp [hns, h, CrossChainStatus.value]

theorem CrossChainBridge.bridge_loop_step_pending
    (env : Nat → HttpResponse CrossChainTransaction)
    (now deadline k : Nat) (hlt : now < deadline)
    (tx : CrossChainTransaction) (hr : CrossChainBridge.get_status (env k) = some tx)
    (hns : tx.status ≠ CrossChainStatus.atomic_success.value)
    (hnf : tx.status ≠ CrossChainStatus.failed.value)
    (hnr : tx.status ≠ CrossChainStatus.rolled_back.value) :
    CrossChainBridge.wait_loop env now deadline k =
      CrossChainBridge.wait_loop env (now + 1000) deadline (k + 1) := by
  rw [CrossChainBridge.wait_loop.eq_def, dif_pos hlt, hr]
  simp [hns, hnf, hnr]

theorem CrossChainBridge.bridge_loop_step_none
    (env : Nat → HttpResponse CrossChainTransaction)
    (now deadline k : Nat) (hlt : now < deadline)
    (hr : CrossChainBridge.get_status (env k) = none) :
    CrossChainBridge.wait_loop env now deadline k =
      CrossChainBridge.wait_loop env (now + 1000) deadline (k + 1) := by
  rw [CrossChainBridge.wait_loop.eq_def, dif_pos hlt, hr]

theorem CrossChainBridge.bridge_loop_returned_sound
    (env : Nat → HttpResponse CrossChainTransaction) (deadline : Nat) :
    ∀ fuel now k, deadline - now ≤ fuel →
    ∀ tx n, CrossChainBridge.wait_loop env now deadline k = (.returned tx, n) →
      tx.status = CrossChainStatus.atomic_success.value ∧
      ∃ j, k ≤ j ∧ CrossChainBridge.get_status (env j) = some tx ∧ n = j + 1 := by
  intro fuel
  induction fuel with
  | zero =>
    intro now k hfuel tx n heq
    rw [CrossChainBridge.bridge_loop_step_timeout env now deadline k (by omega)] at heq
    simp at heq
  | succ fuel ih =>
    intro now k hfuel tx n heq
    by_cases hlt : now < deadline
    · cases hr : CrossChainBridge.get_status (env k) with
      | some tx0 =>
        by_cases hs : tx0.status = CrossChainStatus.atomic_success.value
        · rw [CrossChainBridge.bridge_loop_step_success env now deadline k hlt tx0 hr hs] at heq
          obtain ⟨h1, h2⟩ := by simpa using heq
          subst h1 h2
          exact ⟨hs, k, le_refl k, hr, rfl⟩
        · by_cases hf : tx0.status = CrossChainStatus.failed.value ∨
              tx0.status = CrossChainStatus.rolled_back.value
          · rw [CrossChainBridge.bridge_loop_step_failure env now deadline k hlt tx0 hr hs hf] at heq
            simp at heq
          · push_neg at hf
            rw [CrossChainBridge.bridge_loop_step_pending env now deadline k hlt tx0 hr hs
              hf.1 hf.2] at heq
            obtain ⟨h1, j, hj, hgj, hn⟩ := ih (now + 1000) (k + 1) (by omega) tx n heq
            exact ⟨h1, j, by omega, hgj, hn⟩
      | none =>
        rw [CrossChainBridge.bridge_loop_step_none env now deadline k hlt hr] at heq
        obtain ⟨h1, j, hj, hgj, hn⟩ := ih (now + 1000) (k + 1) (by omega) tx n heq
        exact ⟨h1, j, by omega, hgj, hn⟩
    · rw [CrossChainBridge.bridge_loop_step_timeout env now deadline k hlt] at heq
      simp at heq

theorem CrossChainBridge.bridge_loop_failure_sound
    (env : Nat → HttpResponse CrossChainTransaction) (deadline : Nat) :
    ∀ fuel now k, deadline - now ≤ fuel →
    ∀ s n, CrossChainBridge.wait_loop env now deadline k = (.atomicFailure s, n) →
      (s = CrossChainStatus.failed.value ∨ s = CrossChainStatus.rolled_back.value) ∧
      ∃ j tx, k ≤ j ∧ CrossChainBridge.get_status (env j) = some tx ∧
        tx.status = s ∧ n = j + 1 := by
  intro fuel
  induction fuel with
  | zero =>
    intro now k hfuel s n heq
    rw [CrossChainBridge.bridge_loop_step_timeout env now deadline k (by omega)] at heq
    simp at heq
  | succ fuel ih =>
    intro now k hfuel s n heq
    by_cases hlt : now < deadline
    · cases hr : CrossChainBridge.get_status (env k) with
      | some tx0 =>
        by_cases hs : tx0.status = CrossChainStatus.atomic_success.value
        · rw [CrossChainBridge.bridge_loop_step_success env now deadline k hlt tx0 hr hs] at heq
          simp at heq
        · by_cases hf : tx0.status = CrossChainStatus.failed.value ∨
              tx0.status = CrossChainStatus.rolled_back.value
          · rw [CrossChainBridge.bridge_loop_step_failure env now deadline k hlt tx0 hr hs hf] at heq
            obtain ⟨h1, h2⟩ := by simpa using heq
            subst h2
            rw [h1] at hf
            exact ⟨hf, k, tx0, le_refl k, hr, h1, rfl⟩
          · push_neg at hf
            rw [CrossChainBridge.bridge_loop_step_pending env now deadline k hlt tx0 hr hs
              hf.1 hf.2] at heq
            obtain ⟨h1, j, tx, hj, hgj, hts, hn⟩ := ih (now + 1000) (k + 1) (by omega) s n heq
            exact ⟨h1, j, tx, by omega, hgj, hts, hn⟩
      | none =>
        rw [CrossChainBridge.bridge_loop_step_none env now deadline k hlt hr] at heq
        obtain ⟨h1, j, tx, hj, hgj, hts, hn⟩ := ih (now + 1000) (k + 1) (by omega) s n heq
        exact ⟨h1, j, tx, by omega, hgj, hts, hn⟩
    · rw [CrossChainBridge.bridge_loop_step_timeout env now deadline k hlt] at heq
      simp at heq

theorem CrossChainBridge.bridge_loop_no_decide
    (env : Nat → HttpResponse CrossChainTransaction) (deadline : Nat) :
    ∀ fuel now k, deadline - now ≤ fuel →
    (∀ i, atomicDecides (CrossChainBridge.get_status (env (k + i))) = false) →
    (CrossChainBridge.wait_loop env now deadline k).1 = .timedOut := by
  intro fuel
  induction fuel with
  | zero =>
    intro now k hfuel hnd
    rw [CrossChainBridge.bridge_loop_step_timeout env now deadline k (by omega)]
  | succ fuel ih =>
    intro now k hfuel hnd
    by_cases hlt : now < deadline
    · have h0 := hnd 0
      cases hr : CrossChainBridge.get_status (env k) with
      | some tx0 =>
        rw [Nat.add_zero, hr] at h0
        simp only [atomicDecides, atomicTerminal, Bool.or_eq_false_iff,
          decide_eq_false_iff_not] at h0
        obtain ⟨⟨h1, h2⟩, h3⟩ := h0
        rw [CrossChainBridge.bridge_loop_step_pending env now deadline k hlt tx0 hr h1 h2 h3]
        exact ih (now + 1000) (k + 1) (by omega)
          (fun i => by have := hnd (i + 1); rwa [show k + (i + 1) = k + 1 + i by omega] at this)
      | none =>
        rw [CrossChainBridge.bridge_loop_step_none env now deadline k hlt hr]
        exact ih (now + 1000) (k + 1) (by omega)
          (fun i => by have := hnd (i + 1); rwa [show k + (i + 1) = k + 1 + i by omega] at this)
    · rw [CrossChainBridge.bridge_loop_step_timeout env now deadline k hlt]

theorem CrossChainBridge.bridge_loop_first_decide
    (env : Nat → HttpResponse CrossChainTransaction) (deadline : Nat) :
    ∀ j now k,
    (∀ i, i < j → atomicDecides (CrossChainBridge.get_status (env (k + i))) = false) →
    now + 1000 * j < deadline →
    ∀ tx, CrossChainBridge.get_status (env (k + j)) = some tx →
    atomicTerminal tx = true →
    CrossChainBridge.wait_loop env now deadline k =
      (if tx.status = CrossChainStatus.atomic_success.value then .returned tx
       else .atomicFailure tx.status, k + j + 1) := by
  intro j
  induction j with
  | zero =>
    intro now k hnd hdl tx hr hterm
    have hlt : now < deadline := by omega
    rw [Nat.add_zero] at hr
    by_cases hs : tx.status = CrossChainStatus.atomic_success.value
    · rw [CrossChainBridge.bridge_loop_step_success env now deadline k hlt tx hr hs, if_pos hs]
    · have hf : tx.status = CrossChainStatus.failed.value ∨
          tx.status = CrossChainStatus.rolled_back.value := by
        simp only [atomicTerminal, Bool.or_eq_true_iff, decide_eq_true_eq] at hterm
        rcases hterm with (h | h) | h
        · exact absurd h hs
        · exact Or.inl h
        · exact Or.inr h
      rw [CrossChainBridge.bridge_loop_step_failure env now deadline k hlt tx hr hs hf, if_neg hs]
  | succ j ih =>
    intro now k hnd hdl tx hr hterm
    have hlt : now < deadline := by omega
    have h0 := hnd 0 (by omega)
    cases hr0 : CrossChainBridge.get_status (env k) with
    | some tx0 =>
      rw [Nat.add_zero, hr0] at h0
      simp only [atomicDecides, atomicTerminal, Bool.or_eq_false_iff,
        decide_eq_false_iff_not] at h0
      obtain ⟨⟨h1, h2⟩, h3⟩ := h0
      rw [CrossChainBridge.bridge_loop_step_pending env now deadline k hlt tx0 hr0 h1 h2 h3]
      have := ih (now + 1000) (k + 1)
        (fun i hi => by
          have := hnd (i + 1) (by omega)
          rwa [show k + (i + 1) = k + 1 + i by omega] at this)
        (by omega) tx (by rwa [show k + 1 + j = k + (j + 1) by omega]) hterm
      rw [this, show k + 1 + j + 1 = k + (j + 1) + 1 by omega]
    | none =>
      rw [CrossChainBridge.bridge_loop_step_none env now deadline k hlt hr0]
      have := ih (now + 1000) (k + 1)
        (fun i hi => by
          have := hnd (i + 1) (by omega)
          rwa [show k + (i + 1) = k + 1 + i by omega] at this)
        (by omega) tx (by rwa [show k + 1 + j = k + (j + 1) by omega]) hterm
      rw [this, show k + 1 + j + 1 = k + (j + 1) + 1 by omega]

/-! ### Claim theorems -/

/-- Claim C1: for every bridge environment and timeout,
wait_for_atomic_completion (i) returns the CrossChainTransaction exactly
when its status is atomic_success and never on an intermediate status
(pending, chat_chain_confirmed, currency_chain_confirmed), (ii) fails with
the RuntimeError carrying the status when the status is failed or
rolled_back, (iii) resolves by the first terminal poll before the deadline,
and (iv) fails with TimeoutError once the deadline is exceeded when no
terminal status is ever observed. -/
theorem C1_wait_for_atomic_completion_spec
    (env : Nat → HttpResponse CrossChainTransaction) (maxWaitMs : Nat) :
    (∀ tx n, CrossChainBridge.wait_for_atomic_completion env maxWaitMs = (.returned tx, n) →
       tx.status = CrossChainStatus.atomic_success.value ∧
       ∃ j, CrossChainBridge.get_status (env j) = some tx) ∧
    (∀ s n, CrossChainBridge.wait_for_atomic_completion env maxWaitMs = (.atomicFailure s, n) →
       (s = CrossChainStatus.failed.value ∨ s = CrossChainStatus.rolled_back.value) ∧
       ∃ j tx, CrossChainBridge.get_status (env j) = some tx ∧ tx.status = s) ∧
    (∀ j tx, (∀ i, i < j → atomicDecides (CrossChainBridge.get_status (env i)) = false) →
       1000 * j < maxWaitMs →
       CrossChainBridge.get_status (env j) = some tx →
       atomicTerminal tx = true →
       CrossChainBridge.wait_for_atomic_completion env maxWaitMs =
         (if tx.status = CrossChainStatus.atomic_success.value then .returned tx
          else .atomicFailure tx.status, j + 1)) ∧
    ((∀ i, atomicDecides (CrossChainBridge.get_status (env i)) = false) →
       (CrossChainBridge.wait_for_atomic_completion env maxWaitMs).1 = .timedOut) := by
  refine ⟨?_, ?_, ?_, ?_⟩
  · intro tx n heq
    obtain ⟨h1, j, hj, hgj, hn⟩ :=
      CrossChainBridge.bridge_loop_returned_sound env maxWaitMs maxWaitMs 0 0 (by omega) tx n heq
    exact ⟨h1, j, hgj⟩
  · intro s n heq
    obtain ⟨h1, j, tx, hj, hgj, hts, hn⟩ :=
      CrossChainBridge.bridge_loop_failure_sound env maxWaitMs maxWaitMs 0 0 (by omega) s n heq
    exact ⟨h1, j, tx, hgj, hts⟩
  · intro j tx hnd hdl hr hterm
    have h := CrossChainBridge.bridge_loop_first_decide env maxWaitMs j 0 0
      (fun i hi => by simpa using hnd i hi) (by omega) tx (by simpa using hr) hterm
    have h2 : CrossChainBridge.wait_for_atomic_completion env maxWaitMs =
        CrossChainBridge.wait_loop env 0 maxWaitMs 0 := rfl
    rw [h2, h]
    simp
  · intro hnd
    exact CrossChainBridge.bridge_loop_no_decide env maxWaitMs maxWaitMs 0 0 (by omega)
      (fun i => by simpa using hnd i)

/-- Witness for C1: with a bridge that reports atomic_success on the first
poll, wait_for_atomic_completion returns that transaction after one poll. -/
theorem C1_witness :
    CrossChainBridge.wait_for_atomic_completion
        (fun _ => .status 200 bridgeTxSuccess) 60000 = (.returned bridgeTxSuccess, 1) := by
  have h := (C1_wait_for_atomic_completion_spec
      (fun _ => .status 200 bridgeTxSuccess) 60000).2.2.1
    0 bridgeTxSuccess (fun i hi => absurd hi (by omega)) (by omega)
    (by simp [CrossChainBridge.get_status])
    (by simp [atomicTerminal, bridgeTxSuccess, CrossChainStatus.value])
  simpa [bridgeTxSuccess, CrossChainStatus.value] using h

/-- Counterexample to claim C2 as stated: on a ledger whose receipt has
both success = true and error = "boom", the generic wait_for_confirmation
returns the receipt instead of failing with TransactionFailed, because the
code checks receipt.success before receipt.error. -/
theorem C2_counterexample :
    (wait_for_confirmation BlockchainConfig.localDefault envBoth "t2" []).result =
      .returned rBoth ∧ rBoth.success = true ∧ rBoth.error = some "boom" := by
  refine ⟨?_, rfl, rfl⟩
  have h0 : wait_for_confirmation BlockchainConfig.localDefault envBoth "t2" [] =
      wait_loop envBoth "t2" [] 0 300 0 := rfl
  rw [h0, wait_loop_step_success envBoth "t2" [] 0 300 0 (by omega) rBoth
    (by simp [envBoth, resBoth, get_transaction_receipt, rBoth]) rfl]

/-- Claim C2 (amended: success is checked before error, so a receipt with
success = true is returned even if error is also set; TransactionFailed is
raised only for a fetched receipt with a non-empty error and success
false): with an empty cache, wait_for_confirmation (i) returns only a
fetched receipt with success = true, (ii) raises TransactionFailed only
with the non-empty error string of a fetched receipt whose success is
false, (iii) resolves by the first deciding poll before the deadline, and
(iv) times out when no fetched receipt decides. -/
theorem C2_wait_for_confirmation_spec (cfg : BlockchainConfig)
    (env : Nat → FetchResponse ReceiptResult) (txId : String) :
    (∀ r c n, wait_for_confirmation cfg env txId [] = ⟨.returned r, c, n⟩ →
       r.success = true ∧ ∃ j, get_transaction_receipt (env j) = some r) ∧
    (∀ s c n, wait_for_confirmation cfg env txId [] = ⟨.txFailed s, c, n⟩ →
       ∃ j r, get_transaction_receipt (env j) = some r ∧
         r.success = false ∧ r.error = some s ∧ s ≠ "") ∧
    (∀ j r, (∀ i, i < j → receiptDecides (get_transaction_receipt (env i)) = false) →
       2 * j < cfg.confirmation_timeout →
       get_transaction_receipt (env j) = some r →
       (r.success || strTruthy r.error) = true →
       ∃ c, wait_for_confirmation cfg env txId [] =
         ⟨if r.success then .returned r else .txFailed (r.error.getD ""), c, j + 1⟩) ∧
    ((∀ i, receiptDecides (get_transaction_receipt (env i)) = false) →
       (wait_for_confirmation cfg env txId []).result = .timedOut) := by
  have h0 : wait_for_confirmation cfg env txId [] =
      wait_loop env txId [] 0 cfg.confirmation_timeout 0 := rfl
  refine ⟨?_, ?_, ?_, ?_⟩
  · intro r c n heq
    rw [h0] at heq
    obtain ⟨h1, h2, j, hj, hgj, hn⟩ := wait_loop_returned_sound env txId
      cfg.confirmation_timeout cfg.confirmation_timeout [] 0 0 (by omega) r c n heq
    exact ⟨h1, j, hgj⟩
  · intro s c n heq
    rw [h0] at heq
    obtain ⟨r, j, hj, hgj, h1, h2, h3, h4, h5⟩ := wait_loop_txFailed_sound env txId
      cfg.confirmation_timeout cfg.confirmation_timeout [] 0 0 (by omega) s c n heq
    exact ⟨j, r, hgj, h1, h2, h3⟩
  · intro j r hnd hdl hr hterm
    obtain ⟨c, hc, hcl⟩ := wait_loop_first_decide env txId cfg.confirmation_timeout j [] 0 0
      (fun i hi => by simpa using hnd i hi) (by omega) r (by simpa using hr) hterm
    refine ⟨c, ?_⟩
    rw [h0, hc]
    simp
  · intro hnd
    rw [h0]
    exact wait_loop_no_decide env txId cfg.confirmation_timeout cfg.confirmation_timeout
      [] 0 0 (by omega) (fun i => by simpa using hnd i)

/-- Witness for C2: with a ledger that reports failure (success false,
error "insufficient") on the first poll, the wait raises TransactionFailed
carrying that reason after one poll. -/
theorem C2_witness :
    ∃ c, wait_for_confirmation BlockchainConfig.localDefault envErr "t3" [] =
      ⟨.txFailed "insufficient", c, 1⟩ := by
  obtain ⟨c, hc⟩ := (C2_wait_for_confirmation_spec BlockchainConfig.localDefault
      envErr "t3").2.2.1
    0 rErr (fun i hi => absurd hi (by omega)) (by simp [BlockchainConfig.localDefault])
    (by simp [envErr, resErr, get_transaction_receipt, rErr]) (by simp [rErr, strTruthy])
  refine ⟨c, ?_⟩
  simpa [rErr, strTruthy] using hc

/-- Counterexample to claim C3 as stated: after a first call that observed
the terminal failure receipt rErr and raised TransactionFailed
"insufficient", a second call for the same id does not fail with the same
error: the cache branch returns the cached failed receipt as a value. -/
theorem C3_counterexample :
    (wait_for_confirmation BlockchainConfig.localDefault envErr "t3" []).result =
        .txFailed "insufficient" ∧
    (wait_for_confirmation BlockchainConfig.localDefault envErr "t3"
        (wait_for_confirmation BlockchainConfig.localDefault envErr "t3" []).cache).result =
        .returned rErr := by
  have h1 : wait_for_confirmation BlockchainConfig.localDefault envErr "t3" [] =
      ⟨.txFailed "insufficient", [("t3", rErr)], 1⟩ := by
    have h0 : wait_for_confirmation BlockchainConfig.localDefault envErr "t3" [] =
        wait_loop envErr "t3" [] 0 300 0 := rfl
    rw [h0, wait_loop_step_error envErr "t3" [] 0 300 0 (by omega) rErr
      (by simp [envErr, resErr, get_transaction_receipt, rErr]) rfl
      (by simp [rErr, strTruthy])]
    simp [rErr, cacheInsert]
  rw [h1]
  refine ⟨rfl, ?_⟩
  simp [wait_for_confirmation, cacheLookup, rErr, strTruthy]

/-- Claim C3 (amended: once a terminal receipt is observed it is cached and
every later call for that id short-circuits on the cache, with zero
fetches and a result independent of the network; for a successful receipt
the outcome is identical to the first call, but for a failure receipt the
cached receipt is returned as a value instead of re-raising
TransactionFailed): cache short-circuit behaviour of
wait_for_confirmation. -/
theorem C3_cache_short_circuit (cfg : BlockchainConfig)
    (env env2 : Nat → FetchResponse ReceiptResult) (txId : String) :
    (∀ r c n, wait_for_confirmation cfg env txId [] = ⟨.returned r, c, n⟩ →
        wait_for_confirmation cfg env2 txId c = ⟨.returned r, c, 0⟩) ∧
    (∀ s c n, wait_for_confirmation cfg env txId [] = ⟨.txFailed s, c, n⟩ →
        ∃ r, cacheLookup c txId = some r ∧ r.success = false ∧ r.error = some s ∧
          wait_for_confirmation cfg env2 txId c = ⟨.returned r, c, 0⟩) := by
  have h0 : wait_for_confirmation cfg env txId [] =
      wait_loop env txId [] 0 cfg.confirmation_timeout 0 := rfl
  constructor
  · intro r c n heq
    rw [h0] at heq
    obtain ⟨hs, hcl, _⟩ := wait_loop_returned_sound env txId
      cfg.confirmation_timeout cfg.confirmation_timeout [] 0 0 (by omega) r c n heq
    unfold wait_for_confirmation
    rw [hcl]
    simp [hs]
  · intro s c n heq
    rw [h0] at heq
    obtain ⟨r, j, hj, hgj, h1, h2, h3, h4, h5⟩ := wait_loop_txFailed_sound env txId
      cfg.confirmation_timeout cfg.confirmation_timeout [] 0 0 (by omega) s c n heq
    refine ⟨r, h4, h1, h2, ?_⟩
    unfold wait_for_confirmation
    rw [h4]
    simp [h1, h2, strTruthy, h3]

/-- Witness for C3: at the concrete failing environment envErr, the first
call raises TransactionFailed "insufficient" and the second call returns
the cached failed receipt without any fetch. -/
theorem C3_witness :
    ∃ r, cacheLookup [("t3", rErr)] "t3" = some r ∧ r.success = false ∧
      r.error = some "insufficient" ∧
      wait_for_confirmation BlockchainConfig.localDefault envErr "t3" [("t3", rErr)] =
        ⟨.returned r, [("t3", rErr)], 0⟩ := by
  refine (C3_cache_short_circuit BlockchainConfig.localDefault envErr envErr "t3").2
    "insufficient" [("t3", rErr)] 1 ?_
  have h0 : wait_for_confirmation BlockchainConfig.localDefault envErr "t3" [] =
      wait_loop envErr "t3" [] 0 300 0 := rfl
  rw [h0, wait_loop_step_error envErr "t3" [] 0 300 0 (by omega) rErr
    (by simp [envErr, resErr, get_transaction_receipt, rErr]) rfl
    (by simp [rErr, strTruthy])]
  simp [rErr, cacheInsert]

/-- Counterexample to claim C4 as stated: a chat-chain and a currency-chain
transaction that the ledger reports as failed (status "failed",
confirmations 0) does not make wait_for_confirmation fail with
TransactionFailed; both clients keep polling and raise TimeoutError at the
deadline (3 polls for a 3000 ms deadline). -/
theorem C4_counterexample :
    ChatChain.wait_for_confirmation (fun _ => .status 200 chatTxFailedStatus) 6 3000 =
      (.timedOut, 3) ∧
    CurrencyChain.wait_for_confirmation (fun _ => .status 200 currencyTxFailedStatus) 6 3000 =
      (.timedOut, 3) ∧
    chatTxFailedStatus.status = "failed" ∧ currencyTxFailedStatus.status = "failed" := by
  refine ⟨?_, ?_, rfl, rfl⟩
  · simp [ChatChain.wait_for_confirmation, ChatChain.wait_loop, ChatChain.get_transaction,
      chatTxFailedStatus]
  · simp [CurrencyChain.wait_for_confirmation, CurrencyChain.wait_loop,
      CurrencyChain.get_transaction, currencyTxFailedStatus]

/-- Claim C4 (amended: the confirmation-count waits of the chat and
currency chains never inspect the transaction failure status at all; as
long as no fetched transaction reaches the confirmation threshold --
including a transaction the ledger reports as failed -- they keep polling
and resolve to Timeout at the deadline, and their result type has no
failure outcome): no ledger failure is surfaced by these waits. -/
theorem C4_chain_wait_never_fails :
    (∀ (env : Nat → HttpResponse ChatChainTransaction) (threshold maxWaitMs : Nat),
       (∀ i tx, ChatChain.get_transaction (env i) = some tx → tx.confirmations < threshold) →
       (ChatChain.wait_for_confirmation env threshold maxWaitMs).1 = .timedOut) ∧
    (∀ (env : Nat → HttpResponse CurrencyChainTransaction) (threshold maxWaitMs : Nat),
       (∀ i tx, CurrencyChain.get_transaction (env i) = some tx → tx.confirmations < threshold) →
       (CurrencyChain.wait_for_confirmation env threshold maxWaitMs).1 = .timedOut) := by
  constructor
  · intro env threshold maxWaitMs hlow
    refine ChatChain.chat_loop_no_decide env threshold maxWaitMs maxWaitMs 0 0 (by omega) ?_
    intro i
    cases hr : ChatChain.get_transaction (env (0 + i)) with
    | some tx =>
      have := hlow (0 + i) tx hr
      simp [ChatChain.decides, this]
    | none => simp [ChatChain.decides]
  · intro env threshold maxWaitMs hlow
    refine CurrencyChain.currency_loop_no_decide env threshold maxWaitMs maxWaitMs 0 0 (by omega) ?_
    intro i
    cases hr : CurrencyChain.get_transaction (env (0 + i)) with
    | some tx =>
      have := hlow (0 + i) tx hr
      simp [CurrencyChain.decides, this]
    | none => simp [CurrencyChain.decides]

/-- Witness for C4: at the concrete always-failed chat-chain ledger, the
wait resolves to Timeout. -/
theorem C4_witness :
    (ChatChain.wait_for_confirmation (fun _ => .status 200 chatTxFailedStatus) 6 3000).1 =
      .timedOut := by
  refine C4_chain_wait_never_fails.1 (fun _ => .status 200 chatTxFailedStatus) 6 3000 ?_
  intro i tx hr
  simp [ChatChain.get_transaction] at hr
  rw [← hr]
  simp [chatTxFailedStatus]

/-- Claim C5: on the confirmation-count ledgers, wait_for_confirmation
returns a transaction exactly when a fetched transaction satisfies
confirmations >= threshold (the default threshold being 6): any returned
transaction meets the threshold and was fetched, and the first fetched
transaction meeting the threshold before the deadline is returned; it
never returns a transaction below the threshold. -/
theorem C5_chain_confirmation_threshold_spec :
    ChatChain.defaultConfirmationThreshold = 6 ∧
    (∀ (env : Nat → HttpResponse ChatChainTransaction) (threshold maxWaitMs : Nat) tx n,
       ChatChain.wait_for_confirmation env threshold maxWaitMs = (.returned tx, n) →
       threshold ≤ tx.confirmations ∧ ∃ j, ChatChain.get_transaction (env j) = some tx) ∧
    (∀ (env : Nat → HttpResponse ChatChainTransaction) (threshold maxWaitMs j : Nat) tx,
       (∀ i, i < j → ChatChain.decides threshold (ChatChain.get_transaction (env i)) = false) →
       1000 * j < maxWaitMs →
       ChatChain.get_transaction (env j) = some tx →
       threshold ≤ tx.confirmations →
       ChatChain.wait_for_confirmation env threshold maxWaitMs = (.returned tx, j + 1)) ∧
    (∀ (env : Nat → HttpResponse CurrencyChainTransaction) (threshold maxWaitMs : Nat) tx n,
       CurrencyChain.wait_for_confirmation env threshold maxWaitMs = (.returned tx, n) →
       threshold ≤ tx.confirmations ∧ ∃ j, CurrencyChain.get_transaction (env j) = some tx) ∧
    (∀ (env : Nat → HttpResponse CurrencyChainTransaction) (threshold maxWaitMs j : Nat) tx,
       (∀ i, i < j → CurrencyChain.decides threshold (CurrencyChain.get_transaction (env i)) = false) →
       1000 * j < maxWaitMs →
       CurrencyChain.get_transaction (env j) = some tx →
       threshold ≤ tx.confirmations →
       CurrencyChain.wait_for_confirmation env threshold maxWaitMs = (.returned tx, j + 1)) := by
  refine ⟨rfl, ?_, ?_, ?_, ?_⟩
  · intro env threshold maxWaitMs tx n heq
    obtain ⟨h1, j, hj, hgj, hn⟩ := ChatChain.chat_loop_returned_sound env threshold
      maxWaitMs maxWaitMs 0 0 (by omega) tx n heq
    exact ⟨h1, j, hgj⟩
  · intro env threshold maxWaitMs j tx hnd hdl hr hc
    have h := ChatChain.chat_loop_first_decide env threshold maxWaitMs j 0 0
      (fun i hi => by simpa using hnd i hi) (by omega) tx (by simpa using hr) hc
    have h0 : ChatChain.wait_for_confirmation env threshold maxWaitMs =
        ChatChain.wait_loop env threshold 0 maxWaitMs 0 := rfl
    rw [h0, h]
    simp
  · intro env threshold maxWaitMs tx n heq
    obtain ⟨h1, j, hj, hgj, hn⟩ := CurrencyChain.currency_loop_returned_sound env threshold
      maxWaitMs maxWaitMs 0 0 (by omega) tx n heq
    exact ⟨h1, j, hgj⟩
  · intro env threshold maxWaitMs j tx hnd hdl hr hc
    have h := CurrencyChain.currency_loop_first_decide env threshold maxWaitMs j 0 0
      (fun i hi => by simpa using hnd i hi) (by omega) tx (by simpa using hr) hc
    have h0 : CurrencyChain.wait_for_confirmation env threshold maxWaitMs =
        CurrencyChain.wait_loop env threshold 0 maxWaitMs 0 := rfl
    rw [h0, h]
    simp

/-- Witness for C5: a chat-chain transaction with exactly 6 confirmations
reported on the first poll is returned immediately at the default
threshold. -/
theorem C5_witness :
    ChatChain.wait_for_confirmation (fun _ => .status 200 chatTxConfirmed) 6 30000 =
      (.returned chatTxConfirmed, 1) := by
  have h := C5_chain_confirmation_threshold_spec.2.2.1
    (fun _ => .status 200 chatTxConfirmed) 6 30000 0 chatTxConfirmed
    (fun i hi => absurd hi (by omega)) (by omega)
    (by simp [ChatChain.get_transaction]) (by simp [chatTxConfirmed])
  simpa using h

/-- Claim C6: a 404/not-found receipt response, a non-200 status and an
exception during the fetch all map to None (treated as still pending); a
None poll before the deadline does not abort the wait but continues the
loop to the next poll; and a run whose polls all yield None resolves to
Timeout after the deadline. -/
theorem C6_transient_pending_spec :
    (get_transaction_receipt FetchResponse.exn = none) ∧
    (∀ (code : Nat) (body : Option ReceiptResult), code ≠ 200 →
       get_transaction_receipt (.status code body) = none) ∧
    (ChatChain.get_transaction HttpResponse.exn = none) ∧
    (∀ tx : ChatChainTransaction, ChatChain.get_transaction (.status 404 tx) = none) ∧
    (∀ (env : Nat → FetchResponse ReceiptResult) (txId : String) cache (now deadline k : Nat),
       now < deadline → get_transaction_receipt (env k) = none →
       wait_loop env txId cache now deadline k =
         wait_loop env txId cache (now + 2) deadline (k + 1)) ∧
    (∀ (env : Nat → HttpResponse ChatChainTransaction) (threshold now deadline k : Nat),
       now < deadline → ChatChain.get_transaction (env k) = none →
       ChatChain.wait_loop env threshold now deadline k =
         ChatChain.wait_loop env threshold (now + 1000) deadline (k + 1)) ∧
    (∀ (cfg : BlockchainConfig) (env : Nat → FetchResponse ReceiptResult) (txId : String),
       (∀ i, get_transaction_receipt (env i) = none) →
       (wait_for_confirmation cfg env txId []).result = .timedOut) := by
  refine ⟨rfl, ?_, rfl, ?_, ?_, ?_, ?_⟩
  · intro code body h
    simp [get_transaction_receipt, h]
  · intro tx
    simp [ChatChain.get_transaction]
  · intro env txId cache now deadline k hlt hr
    exact wait_loop_step_none env txId cache now deadline k hlt hr
  · intro env threshold now deadline k hlt hr
    exact ChatChain.chat_loop_step_none env threshold now deadline k hlt hr
  · intro cfg env txId hnone
    have h0 : wait_for_confirmation cfg env txId [] =
        wait_loop env txId [] 0 cfg.confirmation_timeout 0 := rfl
    rw [h0]
    exact wait_loop_no_decide env txId cfg.confirmation_timeout cfg.confirmation_timeout
      [] 0 0 (by omega) (fun i => by rw [hnone (0 + i)]; rfl)

/-- Witness for C6: a 500 response maps to None, and a run of
all-exception polls resolves to Timeout. -/
theorem C6_witness :
    get_transaction_receipt (.status 500 (some resPending)) = none ∧
    (wait_for_confirmation BlockchainConfig.localDefault (fun _ => FetchResponse.exn)
        "t6" []).result = .timedOut :=
  ⟨C6_transient_pending_spec.2.1 500 (some resPending) (by omega),
   C6_transient_pending_spec.2.2.2.2.2.2 BlockchainConfig.localDefault
     (fun _ => FetchResponse.exn) "t6" (fun _ => rfl)⟩

/-- Claim C7: a run of the generic wait in which no poll ever yields a
deciding receipt (including all-transient-error runs), started with no
terminal receipt cached for the id, resolves to Timeout, and performs at
most ceil(timeout / pollInterval) + 1 = (timeout + 1) / 2 + 1 polls (the
poll interval being 2 s), so it terminates no later than one poll interval
after the configured deadline. -/
theorem C7_timeout_bound (cfg : BlockchainConfig)
    (env : Nat → FetchResponse ReceiptResult) (txId : String)
    (cache : List (String × TransactionReceipt))
    (hcache : ∀ r, cacheLookup cache txId = some r → (r.success || strTruthy r.error) = false)
    (hnd : ∀ i, receiptDecides (get_transaction_receipt (env i)) = false) :
    (wait_for_confirmation cfg env txId cache).result = .timedOut ∧
    (wait_for_confirmation cfg env txId cache).polls ≤
      (cfg.confirmation_timeout + 1) / 2 + 1 := by
  have h0 : wait_for_confirmation cfg env txId cache =
      wait_loop env txId cache 0 cfg.confirmation_timeout 0 := by
    unfold wait_for_confirmation
    cases hcl : cacheLookup cache txId with
    | none => rfl
    | some cached =>
      have := hcache cached hcl
      simp [this]
  rw [h0]
  constructor
  · exact wait_loop_no_decide env txId cfg.confirmation_timeout cfg.confirmation_timeout
      cache 0 0 (by omega) (fun i => by simpa using hnd i)
  · have h := wait_loop_polls_le env txId cfg.confirmation_timeout cfg.confirmation_timeout
      cache 0 0 (by omega)
    omega

/-- Witness for C7: an all-exception environment with the local default
configuration (timeout 300 s) times out within 151 polls. -/
theorem C7_witness :
    (wait_for_confirmation BlockchainConfig.localDefault (fun _ => FetchResponse.exn)
        "t7" []).result = .timedOut ∧
    (wait_for_confirmation BlockchainConfig.localDefault (fun _ => FetchResponse.exn)
        "t7" []).polls ≤ (BlockchainConfig.localDefault.confirmation_timeout + 1) / 2 + 1 :=
  C7_timeout_bound BlockchainConfig.localDefault (fun _ => FetchResponse.exn) "t7" []
    (fun r h => by simp [cacheLookup] at h) (fun i => rfl)

/-- Claim C8: with a ledger that reports a pending receipt on the first
two polls and a success receipt with block height 10 on the third, the
generic wait_for_confirmation returns that confirmed receipt after exactly
3 receipt fetches. -/
theorem C8_three_polls :
    wait_for_confirmation BlockchainConfig.localDefault envThree "u1" [] =
      ⟨.returned receiptConfirmed, [("u1", receiptConfirmed)], 3⟩ := by
  have h0 : wait_for_confirmation BlockchainConfig.localDefault envThree "u1" [] =
      wait_loop envThree "u1" [] 0 300 0 := rfl
  rw [h0]
  simp [wait_loop, envThree, resPending, resConfirmed, receiptConfirmed,
    get_transaction_receipt, cacheInsert, strTruthy]

/-- Counterexample to claim C9 as stated: from a ledger response whose
result carries success = true together with error = "oops",
get_transaction_receipt constructs (and wait_for_confirmation would cache)
a receipt with both success = true and a non-null error, so the
exclusivity invariant is not enforced by the client. -/
theorem C9_counterexample :
    get_transaction_receipt (FetchResponse.status 200 (some resInv)) = some rInv ∧
    rInv.success = true ∧ rInv.error = some "oops" := by
  refine ⟨?_, rfl, rfl⟩
  simp [get_transaction_receipt, resInv, rInv]

/-- Claim C9 (amended: the client copies success and error verbatim from
the ledger response and does not enforce the exclusivity invariant; a
constructed receipt satisfies success-and-error exclusivity exactly when
the ledger response does): field preservation of receipt construction. -/
theorem C9_receipt_fields_verbatim (res : ReceiptResult) (r : TransactionReceipt)
    (h : get_transaction_receipt (FetchResponse.status 200 (some res)) = some r) :
    r.success = res.success ∧ r.error = res.error ∧
    (¬(r.success = true ∧ r.error ≠ none) ↔ ¬(res.success = true ∧ res.error ≠ none)) := by
  simp only [get_transaction_receipt, if_neg (by omega : ¬ (200 : Nat) ≠ 200),
    Option.some.injEq] at h
  subst h
  exact ⟨rfl, rfl, Iff.rfl⟩

/-- Witness for C9: applied to the invariant-violating response resInv,
the constructed receipt reproduces its fields. -/
theorem C9_witness :
    rInv.success = resInv.success ∧ rInv.error = resInv.error ∧
    (¬(rInv.success = true ∧ rInv.error ≠ none) ↔
      ¬(resInv.success = true ∧ resInv.error ≠ none)) :=
  C9_receipt_fields_verbatim resInv rInv (by simp [get_transaction_receipt, resInv, rInv])

/-- Claim C10: is_transaction_confirmed is total (in this embedding every
poll outcome, including the exception case, yields a Bool); it returns
true exactly when the fetch produces a receipt whose success field is
true, and false when no receipt exists or the fetch raises. -/
theorem C10_is_transaction_confirmed_spec (resp : FetchResponse ReceiptResult) :
    (is_transaction_confirmed resp = true ↔
      ∃ r, get_transaction_receipt resp = some r ∧ r.success = true) ∧
    (get_transaction_receipt resp = none → is_transaction_confirmed resp = false) ∧
    is_transaction_confirmed (FetchResponse.exn : FetchResponse ReceiptResult) = false := by
  refine ⟨?_, ?_, rfl⟩
  · unfold is_transaction_confirmed
    cases h : get_transaction_receipt resp with
    | some r => simp
    | none => simp
  · intro h
    unfold is_transaction_confirmed
    rw [h]

/-- Witness for C10: a 500 response yields no receipt and
is_transaction_confirmed returns false on it. -/
theorem C10_witness :
    is_transaction_confirmed (FetchResponse.status 500 (some resPending)) = false :=
  (C10_is_transaction_confirmed_spec (FetchResponse.status 500 (some resPending))).2.1
    (by simp [get_transaction_receipt])

end DChat
